import Mathlib

/-!
Verification of the gold-decision-radar market-data aggregator.

The source is a JavaScript serverless endpoint (several revisions of
`functions/api/market.js` plus a cached variant).  We embed it shallowly:

* JavaScript numbers are modelled as exact rationals (`ℚ`); the special
  values a field may hold in JavaScript (`NaN`, `null`, `undefined`) are
  modelled by the inductive type `JVal`.
* `parseFloat` (composed with `String(..).trim()` where the source applies
  it) is an uninterpreted parameter `pf : String → JVal` so that every
  theorem holds for every possible parse behaviour.
* Fallible functions return `Except String α`, mirroring `throw new Error`.
* Wall-clock timestamps (`asOf` fields) are outside the model.
* The per-request `errors` array is modelled as a list of structured
  entries `⟨field, msg⟩`; the source renders such an entry as the string
  `field ++ ": " ++ msg` via a template literal.  `Promise.all` makes the
  push order of concurrently failing resolvers nondeterministic, so we fix
  the textual order of the source and prove only order-insensitive facts
  (counts and per-field filters).
-/

/-- A JavaScript value as it can appear in the numeric data paths of the
endpoint: a finite number, `NaN`, `null`, or `undefined`. -/
inductive JVal where
  | num (q : ℚ)
  | nan
  | null
  | undefined
deriving DecidableEq

/-- The check `typeof v === "number" && Number.isFinite(v)`: true exactly for finite
numbers (in this model, the `num` constructor). -/
def JVal.isFiniteNum : JVal → Bool
  | .num _ => true
  | _ => false

/-- Extract the rational carried by a finite number, if any. -/
def JVal.toQ : JVal → Option ℚ
  | .num q => some q
  | _ => none

/-- Model of `v ?? null`: JavaScript nullish coalescing against the literal `null`,
as used when assembling the response object (`obj?.field ?? null`). -/
def JVal.orNull : JVal → JVal
  | .null => .null
  | .undefined => .null
  | v => v

/-- JavaScript `Math.round` on a finite value: `⌊x + 1/2⌋` (ties are
rounded toward `+∞`).  On the nonnegative values produced by the RSI
pipeline this coincides with the spec's round-half-up. -/
def roundHalfUp (q : ℚ) : ℤ := Int.floor (q + 1/2)

/-- Successive differences `closes[i+1] - closes[i]` of a price series,
the `change` values of the RSI loops. -/
def diffs : List ℚ → List ℚ
  | a :: b :: rest => (b - a) :: diffs (b :: rest)
  | _ => []

/-- One smoothing step of the source's second RSI loop:
`avgGain = (avgGain*13 + gain)/14`, `avgLoss = (avgLoss*13 + loss)/14`
with `gain = change > 0 ? change : 0` and
`loss = change < 0 ? Math.abs(change) : 0`. -/
def wilderStep (s : ℚ × ℚ) (c : ℚ) : ℚ × ℚ :=
  ((s.1 * 13 + (if c > 0 then c else 0)) / 14,
   (s.2 * 13 + (if c < 0 then -c else 0)) / 14)

/-- The function `computeRsi14` from `functions/api/market.js`: Wilder RSI(14) over an
oldest-first close series; `null` when fewer than 15 closes are given.
The first loop (`i = 1..14`) accumulates `gains`/`losses` with the
`change >= 0` split of the source; the second loop smooths over the
remaining changes; `avgLoss == 0` short-circuits to `100`, otherwise the
result is `Math.round(rsi*10)/10`. -/
def computeRsi14 (closes : List ℚ) : Option ℚ :=
  if closes.length < 15 then none
  else
    let ch := diffs closes
    let gains := ((ch.take 14).map fun c => if c ≥ 0 then c else 0).sum
    let losses := ((ch.take 14).map fun c => if c ≥ 0 then 0 else -c).sum
    let s := (ch.drop 14).foldl wilderStep (gains / 14, losses / 14)
    if s.2 = 0 then some 100
    else some ((roundHalfUp ((100 - 100 / (1 + s.1 / s.2)) * 10) : ℚ) / 10)

/-- Modelled from the spec (section 4.2): the reference Wilder RSI(14)
stated with `max`: initial averages are the sums of `max(change, 0)` and
`max(-change, 0)` over the first 14 changes divided by 14; each later
change updates `avg = (avg*13 + x)/14`; final `avgLoss = 0` yields exactly
100, otherwise `100 - 100/(1+avgGain/avgLoss)` rounded half-up on
`value*10` then divided by 10.  Used only to compare against
`computeRsi14`. -/
def specRsi14 (closes : List ℚ) : Option ℚ :=
  if closes.length < 15 then none
  else
    let ch := diffs closes
    let avgGain0 := ((ch.take 14).map fun c => max c 0).sum / 14
    let avgLoss0 := ((ch.take 14).map fun c => max (-c) 0).sum / 14
    let s := (ch.drop 14).foldl
      (fun s c => ((s.1 * 13 + max c 0) / 14, (s.2 * 13 + max (-c) 0) / 14))
      (avgGain0, avgLoss0)
    if s.2 = 0 then some 100
    else some ((roundHalfUp ((100 - 100 / (1 + s.1 / s.2)) * 10) : ℚ) / 10)

/-- The 17-point regression vector of spec section 8. -/
def regVec : List ℚ :=
  [100, 102, 101, 103, 106, 105, 107, 110, 108, 111, 113, 112, 115, 117, 116, 118, 120]

lemma gain_ge_eq_max (c : ℚ) : (if c ≥ 0 then c else 0) = max c 0 := by
  rcases le_or_lt 0 c with h | h
  · simp [h, max_eq_left h]
  · simp [not_le.mpr h, le_of_lt h, max_eq_right (le_of_lt h)]

lemma gain_gt_eq_max (c : ℚ) : (if c > 0 then c else 0) = max c 0 := by
  rcases lt_trichotomy c 0 with h | h | h
  · simp [not_lt.mpr (le_of_lt h), max_eq_right (le_of_lt h)]
  · simp [h]
  · simp [h, max_eq_left (le_of_lt h)]

lemma loss_ge_eq_max (c : ℚ) : (if c ≥ 0 then (0 : ℚ) else -c) = max (-c) 0 := by
  rcases le_or_lt 0 c with h | h
  · simp [h, max_eq_right (neg_nonpos.mpr h)]
  · have h1 : ¬ c ≥ 0 := not_le.mpr h
    have h2 : (0 : ℚ) ≤ -c := neg_nonneg.mpr (le_of_lt h)
    simp [h1, max_eq_left h2]

lemma loss_lt_eq_max (c : ℚ) : (if c < 0 then -c else 0) = max (-c) 0 := by
  rcases le_or_lt 0 c with h | h
  · simp [not_lt.mpr h, max_eq_right (neg_nonpos.mpr h)]
  · simp [h, max_eq_left (neg_nonneg.mpr (le_of_lt h))]

lemma diffs_nonneg {l : List ℚ} (h : List.Chain' (· ≤ ·) l) :
    ∀ c ∈ diffs l, 0 ≤ c := by
  induction l with
  | nil => intro c hc; simp [diffs] at hc
  | cons a t ih =>
    cases t with
    | nil => intro c hc; simp [diffs] at hc
    | cons b r =>
      intro c hc
      rw [List.chain'_cons] at h
      simp only [diffs, List.mem_cons] at hc
      rcases hc with rfl | hc
      · linarith [h.1]
      · exact ih h.2 c hc

lemma foldl_wilderStep_loss_zero (rest : List ℚ) (hrest : ∀ c ∈ rest, 0 ≤ c) :
    ∀ g : ℚ, (rest.foldl wilderStep (g, 0)).2 = 0 := by
  induction rest with
  | nil => intro g; simp
  | cons c r ih =>
    intro g
    have hc : ¬ c < 0 := not_lt.mpr (hrest c (List.mem_cons_self c r))
    have hr : ∀ x ∈ r, 0 ≤ x := fun x hx => hrest x (List.mem_cons_of_mem c hx)
    simp only [List.foldl_cons, wilderStep, hc, if_false]
    have : (0 : ℚ) * 13 + 0 = 0 := by ring
    rw [this]
    simpa using ih hr _

/-- C1.  `computeRsi14` coincides with the Wilder RSI(14) reference
definition of spec section 4.2 (`specRsi14`) on every close series:
fewer than 15 closes give `null`, otherwise the initial averages, the
exponential-smoothing updates, the `avgLoss = 0 → 100` case and the
one-decimal round-half-up all agree; in particular on the fixed 17-point
regression vector of section 8 both produce 81.5. -/
theorem computeRsi14_eq_spec :
    (∀ closes : List ℚ, computeRsi14 closes = specRsi14 closes) ∧
    computeRsi14 regVec = some (163 / 2) ∧ specRsi14 regVec = some (163 / 2) := by
  have hmain : ∀ closes : List ℚ, computeRsi14 closes = specRsi14 closes := by
    intro closes
    unfold computeRsi14 specRsi14 wilderStep
    simp only [gain_ge_eq_max, gain_gt_eq_max, loss_ge_eq_max, loss_lt_eq_max]
  have hreg : computeRsi14 regVec = some (163 / 2) := by
    norm_num [computeRsi14, regVec, diffs, wilderStep, roundHalfUp, Int.floor_eq_iff]
  exact ⟨hmain, hreg, (hmain regVec).symm.trans hreg⟩

/-- C7.  Any close series of length at least 15 with non-decreasing values
(every change ≥ 0) yields RSI exactly 100: all losses vanish, so the final
`avgLoss` is 0 and the short-circuit branch returns 100. -/
theorem computeRsi14_nondecreasing_eq_100 (closes : List ℚ)
    (hlen : 15 ≤ closes.length) (hmono : List.Chain' (· ≤ ·) closes) :
    computeRsi14 closes = some 100 := by
  have hnn : ∀ c ∈ diffs closes, 0 ≤ c := diffs_nonneg hmono
  unfold computeRsi14
  rw [if_neg (not_lt.mpr hlen)]
  have hlosses :
      (((diffs closes).take 14).map fun c => if c ≥ 0 then (0 : ℚ) else -c).sum = 0 := by
    apply List.sum_eq_zero
    intro x hx
    simp only [List.mem_map] at hx
    obtain ⟨c, hc, rfl⟩ := hx
    have : 0 ≤ c := hnn c (List.mem_of_mem_take hc)
    simp [this]
  have hz : (0 : ℚ) / 14 = 0 := by norm_num
  have hrest : ∀ c ∈ (diffs closes).drop 14, 0 ≤ c :=
    fun c hc => hnn c (List.mem_of_mem_drop hc)
  simp only [hlosses, hz]
  rw [if_pos (foldl_wilderStep_loss_zero _ hrest _)]

/-- Witness for C7 at a concrete non-decreasing 15-point series. -/
theorem computeRsi14_nondecreasing_eq_100_witness :
    15 ≤ ([1, 1, 1, 1, 1, 1, 1, 1, 1, 1, 1, 1, 1, 1, 1] : List ℚ).length ∧
    List.Chain' (· ≤ ·) ([1, 1, 1, 1, 1, 1, 1, 1, 1, 1, 1, 1, 1, 1, 1] : List ℚ) ∧
    computeRsi14 [1, 1, 1, 1, 1, 1, 1, 1, 1, 1, 1, 1, 1, 1, 1] = some 100 :=
  ⟨by decide, by simp [List.chain'_cons],
   computeRsi14_nondecreasing_eq_100 _ (by decide) (by simp [List.chain'_cons])⟩

/-!
Embedding of the first revision of `functions/api/market.js` (the Phase 1
backend: `safe` wrapper, `getDxy`, `getUsdInr`, `getRealYield`,
`fetchYahooChart`, `fetchStooqClose`, `fetchFredLastValue`, and the
response assembly of `onRequestGet`).
-/

/-- One entry of the request-scoped `errors` array; the source pushes the
template string `name ++ ": " ++ msg`. -/
structure ErrEntry where
  field : String
  msg : String
deriving DecidableEq

/-- Provenance metadata `{provider, symbol/series/name}` attached to every
resolved field (the `window` keys, pure annotations, are omitted). -/
structure ProviderTag where
  provider : String
  detail : String
deriving DecidableEq

/-- The normalized shape `fetchYahooChart` produces (its `asOf` timestamp
is outside the model). -/
structure YahooParsed where
  latestPrice : JVal
  pctChangeFromFirstPoint : JVal
deriving DecidableEq

/-- The truthiness chain
`(typeof v === "number" && Number.isFinite(v) && v) || rest` of the
`latestPrice` extraction: a finite nonzero number wins, a finite zero is
falsy and falls through to `rest`, anything else falls through. -/
def pickFinite (v : JVal) (rest : JVal) : JVal :=
  match v with
  | .num q => if q = 0 then rest else .num q
  | _ => rest

/-- Model of `closes.find(x => typeof x === "number" && Number.isFinite(x))`:
the first finite numeric entry, or `undefined` when none exists. -/
def firstFinite (closes : List JVal) : JVal :=
  match closes.find? JVal.isFiniteNum with
  | some v => v
  | none => .undefined

/-- The `pctChangeFromFirstPoint` computation of `fetchYahooChart`:
`first` is the first finite close, `last` the last one (via a reversed
copy); when both exist and `first !== 0` the result is
`((last - first) / first) * 100`, otherwise it stays `null`. -/
def pctFirstLast (closes : List JVal) : JVal :=
  match firstFinite closes, firstFinite closes.reverse with
  | .num f, .num l => if f = 0 then .null else .num ((l - f) / f * 100)
  | _, _ => .null

/-- The parse step of `fetchYahooChart` on an already-fetched chart
payload: `regularMarketPrice` and `previousClose` feed the latest-price
chain, the close array feeds the percentage change. -/
def parseYahooChart (rmp pc : JVal) (closes : List JVal) : YahooParsed :=
  { latestPrice := pickFinite rmp (pickFinite pc .null),
    pctChangeFromFirstPoint := pctFirstLast closes }

/-- Result shape of `fetchStooqClose` (`asOf` omitted). -/
structure StooqRes where
  last : JVal
  pct30d : JVal
deriving DecidableEq

/-- JavaScript `line.split(",")` on the underlying character list:
every comma separates two (possibly empty) fields. -/
def splitCommaChars : List Char → List (List Char)
  | [] => [[]]
  | c :: rest =>
    let r := splitCommaChars rest
    if c = ',' then [] :: r
    else
      match r with
      | h :: t => (c :: h) :: t
      | [] => [[c]]

/-- JavaScript `line.split(",")`. -/
def splitComma (s : String) : List String :=
  (splitCommaChars s.data).map (fun l => String.mk l)

/-- Model of `text.trim().split(/\r?\n/).filter(Boolean)`: the non-empty lines of
a CSV body (the body is modelled after the newline split). -/
def stooqLines (body : List String) : List String :=
  body.filter (fun l => l ≠ "")

/-- The data rows of a Stooq CSV body: skip the header, keep at most 31
rows (`slice(1, 32)`), split on commas, keep rows with at least 5
columns. -/
def stooqRows (body : List String) : List (List String) :=
  ((((stooqLines body).drop 1).take 31).map splitComma).filter
    (fun p => 5 ≤ p.length)

/-- The usable closes of a Stooq CSV body: `parseFloat` of the fifth
column of each data row, finite results only. -/
def stooqCloses (pf : String → JVal) (body : List String) : List ℚ :=
  ((stooqRows body).map (fun r => pf (r.getD 4 ""))).filterMap JVal.toQ

/-- The `pct30d` computation of `fetchStooqClose`: defined only when the
flag is set, both endpoints are finite, and the oldest close is nonzero
(`computePct && Number.isFinite(last) && Number.isFinite(oldest) &&
oldest !== 0`). -/
def stooqPct (computePct : Bool) (last oldest : JVal) : JVal :=
  match computePct, last, oldest with
  | true, .num l, .num o => if o = 0 then .null else .num ((l - o) / o * 100)
  | _, _, _ => .null

/-- The function `fetchStooqClose` on an already-fetched CSV body, given `parseFloat`
behaviour `pf`.  `body` models `text.trim().split(/\r?\n/)`; the
`filter(Boolean)` drops empty lines.  Throws `Stooq CSV empty` only when
fewer than 2 non-empty lines remain; otherwise `last` is the newest
usable close (`closes[0]`, `undefined` when there is none), `oldest` the
oldest one, and `pct30d` the guarded percentage change. -/
def fetchStooqClose (pf : String → JVal) (computePct : Bool)
    (body : List String) : Except String StooqRes :=
  if (stooqLines body).length < 2 then .error "Stooq CSV empty"
  else
    let closes := stooqCloses pf body
    let last : JVal := match closes.head? with
      | some q => .num q
      | none => .undefined
    let oldest : JVal := match closes.getLast? with
      | some q => .num q
      | none => .undefined
    .ok { last := last, pct30d := stooqPct computePct last oldest }

/-- The function `fetchFredLastValue` on an already-fetched CSV body: scan data rows
from the bottom up for the first row with at least two columns whose
second column parses to a finite number; throw when none exists. -/
def fetchFredLastValue (pf : String → JVal) (body : List String) :
    Except String ℚ :=
  match (body.drop 1).reverse.findSome? (fun l =>
      let parts := splitComma l
      if 2 ≤ parts.length then (pf (parts.getD 1 "")).toQ else none) with
  | some v => .ok v
  | none => .error "No numeric value found in FRED CSV"

/-- The helper `pctToTrend` from `getUsdInr`: non-finite input is `stable`; above
`+0.5` is `weakening`, below `-0.5` is `strengthening`, else `stable`. -/
def pctToTrend (pct : JVal) : String :=
  match pct with
  | .num p =>
    if p > 1/2 then "weakening"
    else if p < -(1/2) then "strengthening"
    else "stable"
  | _ => "stable"

/-- Resolved DXY field (`asOf` omitted). -/
structure DxyRes where
  value : JVal
  source : ProviderTag
deriving DecidableEq

/-- The resolver `getDxy`, abstracted over the two provider outcomes: Yahoo first, and
when it throws or its latest price is not finite, Stooq; a Stooq throw
escapes the resolver. -/
def getDxy (y : Except String YahooParsed) (s : Except String StooqRes) :
    Except String DxyRes :=
  match y with
  | .ok yc =>
    if yc.latestPrice.isFiniteNum then
      .ok { value := yc.latestPrice, source := ⟨"yahoo", "DX-Y.NYB"⟩ }
    else s.map fun sr => { value := sr.last, source := ⟨"stooq", "dx.f"⟩ }
  | .error _ => s.map fun sr => { value := sr.last, source := ⟨"stooq", "dx.f"⟩ }

/-- Resolved USD/INR field; `trend := none` models an absent (undefined)
property, used by the `safe` failure default. -/
structure InrRes where
  value : JVal
  pct30d : JVal
  trend : Option String
  source : ProviderTag
deriving DecidableEq

/-- The resolver `getUsdInr`: on the Yahoo path the spot and the 30-day change are
null-guarded (`Number.isFinite(x) ? x : null`) and the trend is derived
from the raw change; the Stooq fallback runs only when Yahoo throws and
applies the same guards to the Stooq values. -/
def getUsdInr (y : Except String YahooParsed) (s : Except String StooqRes) :
    Except String InrRes :=
  match y with
  | .ok yc =>
    .ok { value := if yc.latestPrice.isFiniteNum then yc.latestPrice else .null,
          pct30d := if yc.pctChangeFromFirstPoint.isFiniteNum then
                      yc.pctChangeFromFirstPoint else .null,
          trend := some (pctToTrend yc.pctChangeFromFirstPoint),
          source := ⟨"yahoo", "INR=X"⟩ }
  | .error _ =>
    s.map fun sr =>
      { value := if sr.last.isFiniteNum then sr.last else .null,
        pct30d := if sr.pct30d.isFiniteNum then sr.pct30d else .null,
        trend := some (pctToTrend sr.pct30d),
        source := ⟨"stooq", "usdinr"⟩ }

/-- Resolved real-yield field. -/
structure RyRes where
  value : JVal
  source : ProviderTag
deriving DecidableEq

/-- The resolver `getRealYield`: wrap the FRED scalar; a FRED throw escapes. -/
def getRealYield (v : Except String ℚ) : Except String RyRes :=
  v.map fun q => { value := .num q, source := ⟨"fred", "DFII10"⟩ }

/-- The `safe` wrapper specialised to the DXY resolver: a resolver throw
is converted into the default object
`{value: null, asOf: null, source: {provider: "error", name}}` plus one
pushed error entry (rendered by the source as `"dxy: " ++ msg`). -/
def safeDxy (r : Except String DxyRes) : DxyRes × List ErrEntry :=
  match r with
  | .ok v => (v, [])
  | .error e => ({ value := .null, source := ⟨"error", "dxy"⟩ }, [⟨"dxy", e⟩])

/-- The `safe` wrapper specialised to the USD/INR resolver; the failure
default object has no `pct30d`/`trend` properties, so reading them yields
`undefined` (`.undefined` / `none`). -/
def safeInr (r : Except String InrRes) : InrRes × List ErrEntry :=
  match r with
  | .ok v => (v, [])
  | .error e =>
    ({ value := .null, pct30d := .undefined, trend := none,
       source := ⟨"error", "usdInr"⟩ }, [⟨"usdInr", e⟩])

/-- The `safe` wrapper specialised to the real-yield resolver. -/
def safeRy (r : Except String RyRes) : RyRes × List ErrEntry :=
  match r with
  | .ok v => (v, [])
  | .error e => ({ value := .null, source := ⟨"error", "realYield"⟩ }, [⟨"realYield", e⟩])

/-- The JSON body and status of the Phase 1 `onRequestGet` response
(timestamps omitted; the Phase 2 placeholder fields are literal nulls in
the source). -/
structure MarketResponse where
  status : Nat
  dxy : JVal
  usdInr : JVal
  usdInrChangePct30d : JVal
  usdInrTrend : Option String
  realYield : JVal
  rsi14Setfgold : JVal
  setfGoldPrice : JVal
  sbiGoldEtfInav : JVal
  freshnessDxy : ProviderTag
  freshnessUsdInr : ProviderTag
  freshnessRealYield : ProviderTag
  errors : List ErrEntry
deriving DecidableEq

/-- The Phase 1 `onRequestGet`, abstracted over the three resolver
outcomes: each outcome passes through its `safe` wrapper, the body is
assembled with `obj?.field ?? null` reads, and the status is always
200.  The fixed `errors` order stands in for the nondeterministic
completion order of `Promise.all`. -/
def onRequestGet (dxyO : Except String DxyRes) (inrO : Except String InrRes)
    (ryO : Except String RyRes) : MarketResponse :=
  let d := safeDxy dxyO
  let i := safeInr inrO
  let r := safeRy ryO
  { status := 200,
    dxy := d.1.value.orNull,
    usdInr := i.1.value.orNull,
    usdInrChangePct30d := i.1.pct30d.orNull,
    usdInrTrend := i.1.trend,
    realYield := r.1.value.orNull,
    rsi14Setfgold := .null,
    setfGoldPrice := .null,
    sbiGoldEtfInav := .null,
    freshnessDxy := d.1.source,
    freshnessUsdInr := i.1.source,
    freshnessRealYield := r.1.source,
    errors := d.2 ++ i.2 ++ r.2 }

/-- C2.  Failure containment in the Phase 1 aggregator: the response
status is always 200; a fallback chain whose providers all fail makes the
resolver fail with the last provider's reason; a failed resolver yields a
null field value and exactly one error entry naming that field (with that
reason); and every field of the response is determined solely by its own
resolver's outcome, so one resolver's failure never disturbs another
field. -/
theorem onRequestGet_total_failure_contained
    (dxyO : Except String DxyRes) (inrO : Except String InrRes)
    (ryO : Except String RyRes) (ey ed ei er : String) :
    (onRequestGet dxyO inrO ryO).status = 200 ∧
    getDxy (.error ey) (.error ed) = .error ed ∧
    getUsdInr (.error ey) (.error ei) = .error ei ∧
    (dxyO = .error ed →
      (onRequestGet dxyO inrO ryO).dxy = .null ∧
      (onRequestGet dxyO inrO ryO).errors.filter
        (fun en => en.field == "dxy") = [⟨"dxy", ed⟩]) ∧
    (inrO = .error ei →
      (onRequestGet dxyO inrO ryO).usdInr = .null ∧
      (onRequestGet dxyO inrO ryO).errors.filter
        (fun en => en.field == "usdInr") = [⟨"usdInr", ei⟩]) ∧
    (ryO = .error er →
      (onRequestGet dxyO inrO ryO).realYield = .null ∧
      (onRequestGet dxyO inrO ryO).errors.filter
        (fun en => en.field == "realYield") = [⟨"realYield", er⟩]) ∧
    (onRequestGet dxyO inrO ryO).dxy = (safeDxy dxyO).1.value.orNull ∧
    (onRequestGet dxyO inrO ryO).usdInr = (safeInr inrO).1.value.orNull ∧
    (onRequestGet dxyO inrO ryO).usdInrChangePct30d = (safeInr inrO).1.pct30d.orNull ∧
    (onRequestGet dxyO inrO ryO).usdInrTrend = (safeInr inrO).1.trend ∧
    (onRequestGet dxyO inrO ryO).realYield = (safeRy ryO).1.value.orNull := by
  refine ⟨rfl, rfl, rfl, ?_, ?_, ?_, rfl, rfl, rfl, rfl, rfl⟩
  · rintro rfl
    rcases inrO with ei | vi <;> rcases ryO with er | vr <;>
      simp [onRequestGet, safeDxy, safeInr, safeRy, JVal.orNull, List.filter]
  · rintro rfl
    rcases dxyO with ed | vd <;> rcases ryO with er | vr <;>
      simp [onRequestGet, safeDxy, safeInr, safeRy, JVal.orNull, List.filter]
  · rintro rfl
    rcases dxyO with ed | vd <;> rcases inrO with ei | vi <;>
      simp [onRequestGet, safeDxy, safeInr, safeRy, JVal.orNull, List.filter]

/-- Witness for C2: DXY's whole chain fails while the others succeed. -/
theorem onRequestGet_total_failure_contained_witness :
    (onRequestGet (getDxy (.error "yahoo down") (.error "stooq down"))
      (.ok ⟨.num 83, .num 1, some "weakening", ⟨"yahoo", "INR=X"⟩⟩)
      (.ok ⟨.num 2, ⟨"fred", "DFII10"⟩⟩)).status = 200 ∧
    (onRequestGet (getDxy (.error "yahoo down") (.error "stooq down"))
      (.ok ⟨.num 83, .num 1, some "weakening", ⟨"yahoo", "INR=X"⟩⟩)
      (.ok ⟨.num 2, ⟨"fred", "DFII10"⟩⟩)).dxy = .null ∧
    (onRequestGet (getDxy (.error "yahoo down") (.error "stooq down"))
      (.ok ⟨.num 83, .num 1, some "weakening", ⟨"yahoo", "INR=X"⟩⟩)
      (.ok ⟨.num 2, ⟨"fred", "DFII10"⟩⟩)).errors.filter
        (fun en => en.field == "dxy") = [⟨"dxy", "stooq down"⟩] ∧
    (onRequestGet (getDxy (.error "yahoo down") (.error "stooq down"))
      (.ok ⟨.num 83, .num 1, some "weakening", ⟨"yahoo", "INR=X"⟩⟩)
      (.ok ⟨.num 2, ⟨"fred", "DFII10"⟩⟩)).usdInr = .num 83 := by
  have h := onRequestGet_total_failure_contained
    (getDxy (.error "yahoo down") (.error "stooq down"))
    (.ok ⟨.num 83, .num 1, some "weakening", ⟨"yahoo", "INR=X"⟩⟩)
    (.ok ⟨.num 2, ⟨"fred", "DFII10"⟩⟩) "yahoo down" "stooq down" "x" "y"
  have hfail := h.2.2.2.1 h.2.1
  exact ⟨h.1, hfail.1, hfail.2, h.2.2.2.2.2.2.2.1⟩

/-- C4.  DXY fallback ordering: when the Yahoo primary throws or carries
no finite latest price and the Stooq fallback succeeds, the resolved
field names the `stooq` provider and carries the Stooq close, and the
`safe` wrapper records no error; when the primary carries a finite latest
price it wins outright regardless of the fallback — the first provider
with a finite value alone determines the field. -/
theorem getDxy_fallback_source (yO : Except String YahooParsed) (sr : StooqRes)
    (hy : ∀ yc, yO = .ok yc → yc.latestPrice.isFiniteNum = false) :
    getDxy yO (.ok sr) = .ok { value := sr.last, source := ⟨"stooq", "dx.f"⟩ } ∧
    (safeDxy (getDxy yO (.ok sr))).2 = [] ∧
    (∀ (yc : YahooParsed) (sO : Except String StooqRes),
      yc.latestPrice.isFiniteNum = true →
      getDxy (.ok yc) sO =
        .ok { value := yc.latestPrice, source := ⟨"yahoo", "DX-Y.NYB"⟩ }) := by
  refine ⟨?_, ?_, ?_⟩
  · rcases yO with e | yc
    · simp [getDxy, Except.map]
    · have := hy yc rfl
      simp [getDxy, this, Except.map]
  · rcases yO with e | yc
    · simp [getDxy, Except.map, safeDxy]
    · have := hy yc rfl
      simp [getDxy, this, Except.map, safeDxy]
  · intro yc sO hfin
    simp [getDxy, hfin]

/-- Witness for C4: Yahoo throws, Stooq returns a close of 99. -/
theorem getDxy_fallback_source_witness :
    getDxy (.error "HTTP 500") (.ok ⟨.num 99, .null⟩) =
      .ok { value := .num 99, source := ⟨"stooq", "dx.f"⟩ } ∧
    (safeDxy (getDxy (.error "HTTP 500") (.ok ⟨.num 99, .null⟩))).2 = [] := by
  have h := getDxy_fallback_source (.error "HTTP 500") ⟨.num 99, .null⟩
    (fun yc hyc => by cases hyc)
  exact ⟨h.1, h.2.1⟩

/-- C5.  The trend classification of `pctToTrend` on finite 30-day
changes: above +0.5 is `weakening`, below −0.5 is `strengthening`,
anything in between is `stable`. -/
theorem pctToTrend_classification (p : ℚ) :
    (1/2 < p → pctToTrend (.num p) = "weakening") ∧
    (p < -(1/2) → pctToTrend (.num p) = "strengthening") ∧
    (-(1/2) ≤ p → p ≤ 1/2 → pctToTrend (.num p) = "stable") := by
  refine ⟨fun h => ?_, fun h => ?_, fun h1 h2 => ?_⟩
  · show (if p > 1/2 then "weakening" else if p < -(1/2) then "strengthening" else "stable") = "weakening"
    rw [if_pos h]
  · have hn : ¬ p > (1/2 : ℚ) := by linarith
    show (if p > 1/2 then "weakening" else if p < -(1/2) then "strengthening" else "stable") = "strengthening"
    rw [if_neg hn, if_pos h]
  · have hn1 : ¬ p > (1/2 : ℚ) := not_lt.mpr h2
    have hn2 : ¬ p < -(1/2 : ℚ) := not_lt.mpr h1
    show (if p > 1/2 then "weakening" else if p < -(1/2) then "strengthening" else "stable") = "stable"
    rw [if_neg hn1, if_neg hn2]

/-- Witness for C5 at the three percentage changes of spec section 8:
`(84-80)/80*100 = +5` weakening, `(80-84)/84*100 = -100/21`
strengthening, `(80.3-80)/80*100 = 0.375` stable. -/
theorem pctToTrend_classification_witness :
    pctToTrend (.num ((84 - 80) / 80 * 100)) = "weakening" ∧
    pctToTrend (.num ((80 - 84) / 84 * 100)) = "strengthening" ∧
    pctToTrend (.num ((803/10 - 80) / 80 * 100)) = "stable" :=
  ⟨(pctToTrend_classification _).1 (by norm_num),
   (pctToTrend_classification _).2.1 (by norm_num),
   (pctToTrend_classification _).2.2 (by norm_num) (by norm_num)⟩

/-- C6.  The percentage-change computations: on the Yahoo path the change
is `(last - first)/first * 100` over the usable endpoints and `null` when
the first usable close is zero or either endpoint is missing; on the
Stooq path the same formula applies to the newest (`latest`) and oldest
(`earliest`) usable closes with the same null guards. -/
theorem pctChange_formula :
    (∀ (closes : List JVal) (f l : ℚ), firstFinite closes = .num f →
      firstFinite closes.reverse = .num l → f ≠ 0 →
      pctFirstLast closes = .num ((l - f) / f * 100)) ∧
    (∀ closes : List JVal,
      firstFinite closes = .num 0 ∨ (firstFinite closes).isFiniteNum = false ∨
        (firstFinite closes.reverse).isFiniteNum = false →
      pctFirstLast closes = .null) ∧
    (∀ l o : ℚ, o ≠ 0 →
      stooqPct true (.num l) (.num o) = .num ((l - o) / o * 100)) ∧
    (∀ last oldest : JVal,
      oldest = .num 0 ∨ last.isFiniteNum = false ∨ oldest.isFiniteNum = false →
      stooqPct true last oldest = .null) := by
  refine ⟨?_, ?_, ?_, ?_⟩
  · intro closes f l hf hl hne
    unfold pctFirstLast
    rw [hf, hl]
    simp [hne]
  · intro closes h
    unfold pctFirstLast
    rcases h with h | h | h
    · rw [h]
      rcases hl : firstFinite closes.reverse with q | _ | _ | _ <;> simp
    · rcases hf : firstFinite closes with q | _ | _ | _ <;>
        rcases hl : firstFinite closes.reverse with q2 | _ | _ | _ <;>
        simp_all [JVal.isFiniteNum]
    · rcases hf : firstFinite closes with q | _ | _ | _ <;>
        rcases hl : firstFinite closes.reverse with q2 | _ | _ | _ <;>
        simp_all [JVal.isFiniteNum]
  · intro l o hne
    simp [stooqPct, hne]
  · intro last oldest h
    rcases h with rfl | h | h
    · rcases last with q | _ | _ | _ <;> simp [stooqPct]
    · rcases last with q | _ | _ | _ <;> rcases oldest with q2 | _ | _ | _ <;>
        simp_all [JVal.isFiniteNum, stooqPct]
    · rcases last with q | _ | _ | _ <;> rcases oldest with q2 | _ | _ | _ <;>
        simp_all [JVal.isFiniteNum, stooqPct]

/-- Witness for C6 on a concrete close array with a leading null entry:
first usable close 80, last usable close 84, change +5; and the Stooq
formula at latest 84 / oldest 80. -/
theorem pctChange_formula_witness :
    pctFirstLast [.null, .num 80, .num 84] = .num ((84 - 80) / 80 * 100) ∧
    stooqPct true (.num 84) (.num 80) = .num ((84 - 80) / 80 * 100) ∧
    pctFirstLast [.nan, .null] = .null :=
  ⟨pctChange_formula.1 [.null, .num 80, .num 84] 80 84 rfl rfl (by norm_num),
   pctChange_formula.2.2.1 84 80 (by norm_num),
   pctChange_formula.2.1 [.nan, .null] (Or.inr (Or.inl rfl))⟩

/-- The helper `pctToTrend` maps every non-finite input to `stable`. -/
lemma pctToTrend_nonfinite (v : JVal) (h : v.isFiniteNum = false) :
    pctToTrend v = "stable" := by
  cases v <;> simp_all [JVal.isFiniteNum, pctToTrend]

/-- C10.  Whenever the USD/INR resolver succeeds, its `trend` property is
present, and if the stored 30-day change is unavailable (stored as null
because the raw change was not finite) the trend is the string `stable`
rather than null — on both the Yahoo and the Stooq path. -/
theorem getUsdInr_trend_stable_on_missing_pct (yO : Except String YahooParsed)
    (sO : Except String StooqRes) (r : InrRes)
    (h : getUsdInr yO sO = .ok r) :
    r.trend.isSome = true ∧
    (r.pct30d.isFiniteNum = false → r.trend = some "stable") := by
  rcases yO with ey | yc
  · rcases sO with es | sr
    · simp [getUsdInr, Except.map] at h
    · simp only [getUsdInr, Except.map] at h
      cases h
      refine ⟨rfl, fun hnf => ?_⟩
      by_cases hfin : sr.pct30d.isFiniteNum
      · simp [hfin] at hnf
      · simp only [Option.some.injEq]
        exact pctToTrend_nonfinite _ (by simpa using hfin)
  · simp only [getUsdInr] at h
    cases h
    refine ⟨rfl, fun hnf => ?_⟩
    by_cases hfin : yc.pctChangeFromFirstPoint.isFiniteNum
    · simp [hfin] at hnf
    · simp only [Option.some.injEq]
      exact pctToTrend_nonfinite _ (by simpa using hfin)

/-- Witness for C10: Yahoo succeeds with a NaN percentage change; the
resolved trend is `stable`, not null. -/
theorem getUsdInr_trend_stable_on_missing_pct_witness :
    getUsdInr (.ok ⟨.num 83, .nan⟩) (.error "down") =
      .ok ⟨.num 83, .null, some "stable", ⟨"yahoo", "INR=X"⟩⟩ ∧
    (JVal.null).isFiniteNum = false ∧
    (⟨.num 83, .null, some "stable", ⟨"yahoo", "INR=X"⟩⟩ : InrRes).trend = some "stable" :=
  ⟨rfl, rfl,
   (getUsdInr_trend_stable_on_missing_pct (.ok ⟨.num 83, .nan⟩) (.error "down")
     ⟨.num 83, .null, some "stable", ⟨"yahoo", "INR=X"⟩⟩ rfl).2 rfl⟩

/-- Counterexample to the C9 claim as stated: a CSV body with a header
and one non-empty garbage line has zero usable rows (no row with 5
columns and a parseable close), yet `fetchStooqClose` succeeds — with an
undefined close — instead of raising a failure. -/
theorem fetchStooqClose_zero_usable_rows_succeeds :
    stooqCloses (fun _ => JVal.nan) ["Date,Open,High,Low,Close", "garbage"] = [] ∧
    fetchStooqClose (fun _ => JVal.nan) false ["Date,Open,High,Low,Close", "garbage"] =
      .ok { last := .undefined, pct30d := .null } := by
  constructor
  · rfl
  · rfl

/-- C9 (amended).  `fetchStooqClose` raises its typed failure exactly
when the trimmed body has fewer than 2 non-empty lines (header included);
with at least 2 non-empty lines it succeeds regardless of how many
usable rows are present, and when no usable close exists the result
carries an undefined close and a null percentage change rather than a
failure. -/
theorem fetchStooqClose_error_iff_short_body (pf : String → JVal) (c : Bool)
    (body : List String) :
    (fetchStooqClose pf c body = .error "Stooq CSV empty" ↔
      (stooqLines body).length < 2) ∧
    (2 ≤ (stooqLines body).length → stooqCloses pf body = [] →
      fetchStooqClose pf c body = .ok { last := .undefined, pct30d := .null }) := by
  by_cases h : (stooqLines body).length < 2
  · refine ⟨⟨fun _ => h, fun _ => ?_⟩, fun h2 _ => absurd h (not_lt.mpr h2)⟩
    simp [fetchStooqClose, h]
  · constructor
    · simp [fetchStooqClose, h]
    · intro _ hempty
      simp [fetchStooqClose, h, hempty]
      cases c <;> simp [stooqPct]

/-- Witness for the amended C9: a one-line body fails; a two-line body
with no usable row succeeds with an undefined close. -/
theorem fetchStooqClose_error_iff_short_body_witness :
    fetchStooqClose (fun _ => JVal.nan) false ["only-header"] = .error "Stooq CSV empty" ∧
    fetchStooqClose (fun _ => JVal.nan) true ["h", "x"] = .ok { last := .undefined, pct30d := .null } :=
  ⟨(fetchStooqClose_error_iff_short_body _ _ _).1.mpr (by decide),
   (fetchStooqClose_error_iff_short_body _ _ _).2 (by decide) rfl⟩

/-- True unless the value is `NaN`: such a value survives `?? null`
coalescing as a finite number or as `null`. -/
def JVal.notNan : JVal → Bool
  | .nan => false
  | _ => true

/-- A value that is a finite number or `null` — what spec section 6
permits a scalar response field to be. -/
def JVal.finOrNull : JVal → Bool
  | .num _ => true
  | .null => true
  | _ => false

lemma orNull_finOrNull {v : JVal} (h : v.notNan = true) :
    v.orNull.finOrNull = true := by
  cases v <;> simp_all [JVal.notNan, JVal.orNull, JVal.finOrNull]

lemma isFiniteNum_exists_num {v : JVal} (h : v.isFiniteNum = true) :
    ∃ q, v = .num q := by
  cases v <;> simp_all [JVal.isFiniteNum]

lemma stooqPct_finOrNull (c : Bool) (a b : JVal) :
    (stooqPct c a b).finOrNull = true := by
  unfold stooqPct
  rcases c <;> rcases a <;> rcases b <;> first
    | rfl
    | (split <;> first
        | rfl
        | (split <;> rfl))

lemma fetchStooqClose_ok_shape {pf : String → JVal} {c : Bool}
    {body : List String} {sr : StooqRes}
    (h : fetchStooqClose pf c body = .ok sr) :
    sr.last.notNan = true ∧ sr.pct30d.finOrNull = true := by
  by_cases hl : (stooqLines body).length < 2
  · simp [fetchStooqClose, hl] at h
  · rcases hh : (stooqCloses pf body).head? with _ | q <;>
      rcases hg : (stooqCloses pf body).getLast? with _ | q2 <;>
      · simp [fetchStooqClose, hl, hh, hg] at h
        subst h
        exact ⟨rfl, stooqPct_finOrNull _ _ _⟩

lemma getDxy_ok_notNan {yO : Except String YahooParsed}
    {sO : Except String StooqRes} {pf : String → JVal} {b1 : List String}
    (hs : sO = fetchStooqClose pf false b1 ∨ ∃ e, sO = .error e)
    {d : DxyRes} (h : getDxy yO sO = .ok d) : d.value.notNan = true := by
  have hstooq : ∀ sr : StooqRes, sO = .ok sr → sr.last.notNan = true := by
    rcases hs with rfl | ⟨e, rfl⟩
    · intro sr hsr
      exact (fetchStooqClose_ok_shape hsr).1
    · intro sr hsr
      cases hsr
  rcases yO with ey | yc
  · rcases hso : sO with e2 | sr
    · rw [hso] at h
      simp [getDxy, Except.map] at h
    · rw [hso] at h
      simp only [getDxy, Except.map] at h
      cases h
      exact hstooq sr hso
  · by_cases hf : yc.latestPrice.isFiniteNum
    · simp only [getDxy, hf, if_true] at h
      cases h
      obtain ⟨q, hq⟩ := isFiniteNum_exists_num hf
      simp [hq, JVal.notNan]
    · rcases hso : sO with e2 | sr
      · rw [hso] at h
        simp [getDxy, hf, Except.map] at h
      · rw [hso] at h
        simp only [getDxy, hf, Bool.false_eq_true, if_false, Except.map] at h
        cases h
        exact hstooq sr hso

lemma getUsdInr_ok_shape {yO : Except String YahooParsed}
    {sO : Except String StooqRes} {r : InrRes}
    (h : getUsdInr yO sO = .ok r) :
    r.value.finOrNull = true ∧ r.pct30d.finOrNull = true := by
  rcases yO with ey | yc
  · rcases sO with es | sr
    · simp [getUsdInr, Except.map] at h
    · simp only [getUsdInr, Except.map] at h
      cases h
      constructor
      · by_cases hf : sr.last.isFiniteNum
        · obtain ⟨q, hq⟩ := isFiniteNum_exists_num hf
          simp [hq, JVal.isFiniteNum, JVal.finOrNull]
        · simp [hf, JVal.finOrNull]
      · by_cases hf : sr.pct30d.isFiniteNum
        · obtain ⟨q, hq⟩ := isFiniteNum_exists_num hf
          simp [hq, JVal.isFiniteNum, JVal.finOrNull]
        · simp [hf, JVal.finOrNull]
  · simp only [getUsdInr] at h
    cases h
    constructor
    · by_cases hf : yc.latestPrice.isFiniteNum
      · obtain ⟨q, hq⟩ := isFiniteNum_exists_num hf
        simp [hq, JVal.isFiniteNum, JVal.finOrNull]
      · simp [hf, JVal.finOrNull]
    · by_cases hf : yc.pctChangeFromFirstPoint.isFiniteNum
      · obtain ⟨q, hq⟩ := isFiniteNum_exists_num hf
        simp [hq, JVal.isFiniteNum, JVal.finOrNull]
      · simp [hf, JVal.finOrNull]

/-- C8.  Null-safety of every scalar response field: however the
providers behave — the Yahoo chart parses can carry anything, the Stooq
outcome is either a real `fetchStooqClose` result or a thrown failure,
FRED either yields its guarded finite scalar or throws — every numeric
field of the assembled response is a finite number or null, never NaN or
undefined, and the Phase 2 placeholder fields are literal nulls. -/
theorem response_scalar_fields_finite_or_null
    (yO yO2 : Except String YahooParsed) (pf : String → JVal) (b1 : List String)
    (sO sO2 : Except String StooqRes) (fO : Except String ℚ)
    (hs : sO = fetchStooqClose pf false b1 ∨ ∃ e, sO = .error e) :
    ((onRequestGet (getDxy yO sO) (getUsdInr yO2 sO2) (getRealYield fO)).dxy).finOrNull = true ∧
    ((onRequestGet (getDxy yO sO) (getUsdInr yO2 sO2) (getRealYield fO)).usdInr).finOrNull = true ∧
    ((onRequestGet (getDxy yO sO) (getUsdInr yO2 sO2) (getRealYield fO)).usdInrChangePct30d).finOrNull = true ∧
    ((onRequestGet (getDxy yO sO) (getUsdInr yO2 sO2) (getRealYield fO)).realYield).finOrNull = true ∧
    (onRequestGet (getDxy yO sO) (getUsdInr yO2 sO2) (getRealYield fO)).rsi14Setfgold = .null ∧
    (onRequestGet (getDxy yO sO) (getUsdInr yO2 sO2) (getRealYield fO)).setfGoldPrice = .null ∧
    (onRequestGet (getDxy yO sO) (getUsdInr yO2 sO2) (getRealYield fO)).sbiGoldEtfInav = .null := by
  have finOrNull_notNan : ∀ v : JVal, v.finOrNull = true → v.notNan = true := by
    intro v hv
    cases v <;> simp_all [JVal.finOrNull, JVal.notNan]
  have hdxy : (safeDxy (getDxy yO sO)).1.value.notNan = true := by
    rcases hgd : getDxy yO sO with e | d
    · rfl
    · simpa [safeDxy] using getDxy_ok_notNan hs hgd
  have hinr : (safeInr (getUsdInr yO2 sO2)).1.value.notNan = true ∧
      (safeInr (getUsdInr yO2 sO2)).1.pct30d.notNan = true := by
    rcases hgi : getUsdInr yO2 sO2 with e | r
    · exact ⟨rfl, rfl⟩
    · have hsh := getUsdInr_ok_shape hgi
      exact ⟨by simpa [safeInr] using finOrNull_notNan _ hsh.1,
             by simpa [safeInr] using finOrNull_notNan _ hsh.2⟩
  have hry : (safeRy (getRealYield fO)).1.value.notNan = true := by
    rcases fO with e | q
    · rfl
    · rfl
  exact ⟨orNull_finOrNull hdxy, orNull_finOrNull hinr.1, orNull_finOrNull hinr.2,
         orNull_finOrNull hry, rfl, rfl, rfl⟩

/-- Witness for C8 at a concrete total-failure-free request where the
Yahoo DXY latest price is NaN-free but the chart closes contain nulls. -/
theorem response_scalar_fields_finite_or_null_witness :
    ((onRequestGet
        (getDxy (.ok (parseYahooChart .nan .null [.null]))
          (fetchStooqClose (fun _ => JVal.num 104) false ["h,h,h,h,h", "d,1,2,3,104"]))
        (getUsdInr (.ok (parseYahooChart (.num 83) .nan [.nan, .num 80, .num 84]))
          (.error "down"))
        (getRealYield (.ok 2))).dxy).finOrNull = true ∧
    ((onRequestGet
        (getDxy (.ok (parseYahooChart .nan .null [.null]))
          (fetchStooqClose (fun _ => JVal.num 104) false ["h,h,h,h,h", "d,1,2,3,104"]))
        (getUsdInr (.ok (parseYahooChart (.num 83) .nan [.nan, .num 80, .num 84]))
          (.error "down"))
        (getRealYield (.ok 2))).usdInrChangePct30d).finOrNull = true :=
  have h := response_scalar_fields_finite_or_null
    (.ok (parseYahooChart .nan .null [.null]))
    (.ok (parseYahooChart (.num 83) .nan [.nan, .num 80, .num 84]))
    (fun _ => JVal.num 104) ["h,h,h,h,h", "d,1,2,3,104"]
    (fetchStooqClose (fun _ => JVal.num 104) false ["h,h,h,h,h", "d,1,2,3,104"])
    (.error "down") (.ok 2) (Or.inl rfl)
  ⟨h.1, h.2.2.1⟩

/-!
Embedding of the cached endpoint variant (the revision with manual
overrides and the Cloudflare edge cache).  Its field resolvers are all
containment-wrapped (`...Safe`) and never throw; a fault escaping the
aggregation (`Promise.all` body) is modelled by an `error` upstream
outcome and rendered as the 500 envelope.  The edge cache is a list of
URL-keyed responses; `ctx.waitUntil(cache.put(...))` is modelled as the
entry prepended to the returned cache state.
-/

namespace P2

/-- The helper `toNum` of the cached variant: `null`/empty query values give null,
otherwise `parseFloat(String(v).trim())` kept only when finite. -/
def toNum (pf : String → JVal) (v : Option String) : Option ℚ :=
  match v with
  | none => none
  | some s => if s = "" then none else (pf s).toQ

/-- The already-resolved upstream field values of one request (every
resolver of this variant is `...Safe` and yields null on failure). -/
structure Upstream where
  dxy : JVal
  usdInr : JVal
  usdInrPct30d : JVal
  usdInrTrend : Option String
  realYield : JVal
  setfPrice : JVal
  rsi : JVal
  sbiInav : JVal
deriving DecidableEq

/-- The response fields of the cached variant that the claims inspect:
the chosen values with their manual/auto modes, the macro fields, and
the 200/500 envelope. -/
structure Body where
  dxy : JVal
  realYield : JVal
  usdInr : JVal
  usdInrChangePct30d : JVal
  usdInrTrend : Option String
  priceChosen : JVal
  priceChosenMode : String
  rsiChosen : JVal
  rsiChosenMode : String
  inavChosen : JVal
  inavChosenMode : String
deriving DecidableEq

/-- A rendered HTTP response: the 200 JSON body or the 500 error
envelope `{error, message, asOf}`. -/
inductive Resp where
  | ok (body : Body)
  | fail (msg : String)
deriving DecidableEq

/-- The HTTP status of a response. -/
def Resp.status : Resp → Nat
  | .ok _ => 200
  | .fail _ => 500

/-- The `result` object of the success path: manual overrides, when
finite, replace the auto value (`Number.isFinite(m) ? m : (auto ?? null)`)
and flip the corresponding mode to `manual`; auto values and macro
fields are read with `?? null`. -/
def freshBody (u : Upstream) (inavM priceM rsiM : Option ℚ) : Body :=
  { dxy := u.dxy.orNull,
    realYield := u.realYield.orNull,
    usdInr := u.usdInr.orNull,
    usdInrChangePct30d := u.usdInrPct30d.orNull,
    usdInrTrend := u.usdInrTrend,
    priceChosen := match priceM with
      | some q => .num q
      | none => u.setfPrice.orNull,
    priceChosenMode := if priceM.isSome then "manual" else "auto",
    rsiChosen := match rsiM with
      | some q => .num q
      | none => u.rsi.orNull,
    rsiChosenMode := if rsiM.isSome then "manual" else "auto",
    inavChosen := match inavM with
      | some q => .num q
      | none => u.sbiInav.orNull,
    inavChosenMode := if inavM.isSome then "manual" else "auto" }

/-- The edge cache, keyed by the full request URL. -/
def CacheState := List (String × Resp)

/-- Model of `caches.default.match(cacheKey)`. -/
def cacheMatch (c : CacheState) (k : String) : Option Resp :=
  (List.find? (fun e => e.1 == k) c).map (fun e => e.2)

/-- The cached variant's `onRequestGet`: parse the three manual
overrides; when none is finite, a cache hit is served as-is; otherwise
the response is computed fresh, and it is written back to the cache only
when no manual override is present; an aggregation fault yields the 500
envelope and no write.  Returns the response and the new cache state. -/
def onRequestGet (pf : String → JVal) (cache : CacheState) (urlKey : String)
    (inavQ priceQ rsiQ : Option String) (up : Except String Upstream) :
    Resp × CacheState :=
  let inavManual := toNum pf inavQ
  let priceManual := toNum pf priceQ
  let rsiManual := toNum pf rsiQ
  let hasManual := inavManual.isSome || priceManual.isSome || rsiManual.isSome
  match (if hasManual then none else cacheMatch cache urlKey) with
  | some cached => (cached, cache)
  | none =>
    match up with
    | .ok u =>
      let res := Resp.ok (freshBody u inavManual priceManual rsiManual)
      (res, if hasManual then cache else (urlKey, res) :: cache)
    | .error msg => (Resp.fail msg, cache)

end P2

/-- C3.  A request carrying at least one finite manual override bypasses
the response cache entirely: the cache state after the request is exactly
the state before it (no write), and the response is computed fresh — it
is the same response the handler would produce against an empty cache,
so no cached entry is ever served for such a query string. -/
theorem manual_override_bypasses_cache (pf : String → JVal)
    (cache : P2.CacheState) (urlKey : String)
    (inavQ priceQ rsiQ : Option String) (up : Except String P2.Upstream)
    (hm : (P2.toNum pf inavQ).isSome = true ∨ (P2.toNum pf priceQ).isSome = true ∨
      (P2.toNum pf rsiQ).isSome = true) :
    (P2.onRequestGet pf cache urlKey inavQ priceQ rsiQ up).2 = cache ∧
    (P2.onRequestGet pf cache urlKey inavQ priceQ rsiQ up).1 =
      (P2.onRequestGet pf [] urlKey inavQ priceQ rsiQ up).1 ∧
    (P2.onRequestGet pf cache urlKey inavQ priceQ rsiQ up).1 =
      (match up with
        | .ok u => P2.Resp.ok (P2.freshBody u (P2.toNum pf inavQ)
            (P2.toNum pf priceQ) (P2.toNum pf rsiQ))
        | .error msg => P2.Resp.fail msg) := by
  have hb : ((P2.toNum pf inavQ).isSome || (P2.toNum pf priceQ).isSome ||
      (P2.toNum pf rsiQ).isSome) = true := by
    rcases hm with h | h | h <;> simp [h]
  rcases up with msg | u <;>
    simp [P2.onRequestGet, hb, P2.cacheMatch]

/-- Witness for C3: a populated cache entry under the same key is ignored
and left untouched when `rsi_manual=61` is supplied. -/
theorem manual_override_bypasses_cache_witness :
    ((P2.toNum (fun _ => JVal.num 61) none).isSome = true ∨
      (P2.toNum (fun _ => JVal.num 61) none).isSome = true ∨
      (P2.toNum (fun _ => JVal.num 61) (some "61")).isSome = true) ∧
    (P2.onRequestGet (fun _ => JVal.num 61)
        [("u", P2.Resp.fail "stale")] "u" none none (some "61")
        (.error "boom")).2 = [("u", P2.Resp.fail "stale")] ∧
    (P2.onRequestGet (fun _ => JVal.num 61)
        [("u", P2.Resp.fail "stale")] "u" none none (some "61")
        (.error "boom")).1 = P2.Resp.fail "boom" :=
  have h := manual_override_bypasses_cache (fun _ => JVal.num 61)
    [("u", P2.Resp.fail "stale")] "u" none none (some "61") (.error "boom")
    (Or.inr (Or.inr rfl))
  ⟨Or.inr (Or.inr rfl), h.1, h.2.2⟩
